import Mathlib

/-!
Shallow embedding of the marauder tile-picking subsystem and its mesh /
model-ingestion helpers (src/tile_picker.rs, src/mesh.rs, src/gl_helpers.rs,
src/visualizer/obj.rs).

Conventions of the embedding:
* `f32` values are modelled as exact rationals (`MFloat := ℚ`); all the
  arithmetic the verified claims touch (`x / 255.0`, `1.0 - v`) is exact.
* `i32` (the sources' `Int`/`MInt`) is modelled as `ℤ`; none of the verified
  operations can overflow 32 bits on the inputs the claims quantify over.
* Fallible code (a Rust `fail!`/panic or an out-of-bounds `Vec` access) is
  modelled with `Option`, `none` standing for the abort.
* GL side effects are modelled by returning the issued call's arguments
  (`DrawArraysCall`), the list of released buffer ids (`Mesh.drop`), or by
  explicit framebuffer functions (`FrameBuffer`).
-/

namespace Marauder

/-- cgmath's 2-component vector (`Vec2`/`Vector2` in the sources). -/
structure Vector2 (α : Type) where
  x : α
  y : α
  deriving DecidableEq

/-- cgmath's 3-component vector (`Vec3`/`Vector3` in the sources). -/
structure Vector3 (α : Type) where
  x : α
  y : α
  z : α
  deriving DecidableEq

/-- `MFloat` (gl_types `Float`): the sources' `f32`, modelled as `ℚ`. -/
abbrev MFloat : Type := ℚ

abbrev VertexCoord := Vector3 MFloat

abbrev Normal := Vector3 MFloat

abbrev TextureCoord := Vector2 MFloat

/-- `MapPos = Vec2<Int>`: a tile coordinate. -/
abbrev MapPos := Vector2 Int

/-- `Color3` (gl_types): an RGB color with `f32` channels. -/
structure Color3 where
  r : MFloat
  g : MFloat
  b : MFloat
  deriving DecidableEq

/-- `Size2<Int>` (core types): a width/height pair. -/
structure Size2 where
  w : Int
  h : Int
  deriving DecidableEq

instance : Add (Vector3 MFloat) :=
  ⟨fun a b => { x := a.x + b.x, y := a.y + b.y, z := a.z + b.z }⟩

/-- `Vec3::zero()`. -/
def Vector3.zero : Vector3 MFloat := { x := 0, y := 0, z := 0 }

/-! ## Mesh (src/mesh.rs) and the draw helper (src/gl_helpers.rs) -/

/-- `Mesh` (mesh.rs): the position buffer id `vbo`, the optional color buffer
id `color_vbo`, and the recorded element count `len`. -/
structure Mesh where
  vbo : Nat
  color_vbo : Option Nat
  len : Int
  deriving DecidableEq

/-- `Mesh::new()` (mesh.rs lines 19-25). -/
def Mesh.new : Mesh := { vbo := 0, color_vbo := none, len := 0 }

/-- `Mesh::init` (mesh.rs lines 27-32): records `data.len()` and the freshly
generated position buffer; `glh::gen_buffer()` is modelled by passing the
generated id `new_vbo` explicitly, and the upload into the bound buffer is a
GPU effect outside the state kept here. -/
def Mesh.init (m : Mesh) (data : List VertexCoord) (new_vbo : Nat) : Mesh :=
  { m with len := (data.length : Int), vbo := new_vbo }

/-- `Mesh::set_color` (mesh.rs lines 34-39): records `data.len()` and stores
the freshly generated color buffer id. -/
def Mesh.set_color (m : Mesh) (data : List Color3) (new_vbo : Nat) : Mesh :=
  { m with len := (data.length : Int), color_vbo := some new_vbo }

/-- The arguments of a `gl::DrawArrays(gl::TRIANGLES, first, count)` call. -/
structure DrawArraysCall where
  first : Int
  count : Int
  deriving DecidableEq

/-- `draw_mesh` (gl_helpers.rs lines 123-127): issues a triangle-list draw of
`faces_count * 3` vertices starting at index 0. -/
def draw_mesh (faces_count : Int) : DrawArraysCall :=
  let starting_index : Int := 0
  let vertices_count := faces_count * 3
  { first := starting_index, count := vertices_count }

/-- `Mesh::draw` (mesh.rs lines 41-49): after binding the buffers and the
attribute pointers it calls `glh::draw_mesh(self.len)`; only the issued
`DrawArrays` call is modelled, the binds do not affect it. -/
def Mesh.draw (m : Mesh) : DrawArraysCall := draw_mesh m.len

/-- `Mesh`'s `Drop` impl (mesh.rs lines 52-56): the list of buffer ids
released on destruction — the body is exactly `glh::delete_buffer(self.vbo)`,
so only the position buffer is in the list. -/
def Mesh.drop (m : Mesh) : List Nat := [m.vbo]

/-! ## Tile picker (src/tile_picker.rs) -/

/-- One RGBA pixel as `gl::ReadPixels(..., gl::UNSIGNED_BYTE, ...)` returns
it: four unsigned bytes. -/
structure Pixel where
  r : Nat
  g : Nat
  b : Nat
  a : Nat
  deriving DecidableEq

/-- The framebuffer as read back through `gl::ReadPixels`: the RGBA bytes at
each `(x, y)` position (bottom-left origin). -/
abbrev FrameBuffer := Int × Int → Pixel

/-- `TilePicker::read_coords_from_image_buffer` (tile_picker.rs lines 97-119):
reads the single RGBA pixel at `(mouse_pos.x, win_size.h - mouse_pos.y)` and
decodes it: `Some(Vec2{x: data[0], y: data[1]})` when the blue byte `data[2]`
is nonzero, `None` otherwise. -/
def read_coords_from_image_buffer (win_size : Size2) (fb : FrameBuffer)
    (mouse_pos : MapPos) : Option MapPos :=
  let height := win_size.h
  let reverted_y := height - mouse_pos.y
  let data := fb (mouse_pos.x, reverted_y)
  if data.b ≠ 0 then some { x := (data.r : Int), y := (data.g : Int) }
  else none

/-- Modelled from the spec: GL stores a normalized color channel of the
default framebuffer as an unsigned byte — the channel is clamped to `[0, 1]`
and quantized to `round(255 * c)` (this quantization step is not code of the
repository; the spec relies on it for the decode of §4.3). -/
def quantize_channel (c : MFloat) : Nat :=
  (round (255 * max 0 (min 1 c))).toNat

/-- The RGBA pixel a fragment of color `c` (and alpha `alpha`) leaves in the
framebuffer, channelwise quantized. -/
def quantize_color (c : Color3) (alpha : MFloat) : Pixel :=
  { r := quantize_channel c.r, g := quantize_channel c.g,
    b := quantize_channel c.b, a := quantize_channel alpha }

/-- The framebuffer right after `pick_tile`'s
`glh::set_clear_color(0.0, 0.0, 0.0)` (which calls
`gl::ClearColor(0, 0, 0, 1.0)`, gl_helpers.rs lines 283-285) and
`glh::clear()`: every pixel holds the quantized clear color. -/
def cleared_frame : FrameBuffer :=
  fun _ => quantize_color { r := 0, g := 0, b := 0 } 1

/-- `TilePicker::pick_tile` (tile_picker.rs lines 121-131): activates the
program and uploads the camera matrix (GL state with no bearing on the value
returned), clears the framebuffer to black, draws the picking mesh —
`rasterize` stands for the GPU rendering the uploaded mesh onto the cleared
framebuffer — and returns `read_coords_from_image_buffer(mouse_pos)`. -/
def pick_tile (win_size : Size2) (rasterize : FrameBuffer → FrameBuffer)
    (mouse_pos : MapPos) : Option MapPos :=
  read_coords_from_image_buffer win_size (rasterize cleared_frame) mouse_pos

/-- Modelled from the spec: the geometry collaborator (geom.rs is not among
the given source files) — `tile_to_world` and the hex corner offsets, §6. -/
structure Geom where
  map_pos_to_world_pos : MapPos → Vector3 MFloat
  index_to_hex_vertex : Int → Vector3 MFloat

/-- Modelled from the spec: `MapPosIter::new` (map.rs is not among the given
source files) enumerates every tile coordinate of a `w × h` map in row-major
order, §4.3. -/
def MapPosIter.new (map_size : Size2) : List MapPos :=
  (List.range map_size.h.toNat).flatMap (fun y =>
    (List.range map_size.w.toNat).map (fun x =>
      { x := (x : Int), y := (y : Int) }))

/-- The per-tile picking color computed inside `build_hex_map_mesh`
(tile_picker.rs lines 38-42):
`Color3{r: tile.x / 255.0, g: tile.y / 255.0, b: 1.0}`. -/
def hex_tile_color (tile_pos : MapPos) : Color3 :=
  { r := (tile_pos.x : MFloat) / 255, g := (tile_pos.y : MFloat) / 255,
    b := 1 }

/-- One tile's slice of `build_hex_map_mesh`'s two arrays (tile_picker.rs
lines 33-48): for `num` in `0..6` push the triangle
`(pos3d + vertex, pos3d + next_vertex, pos3d + Vec3::zero())` and the tile's
color three times. -/
def hex_tile_data (geom : Geom) (tile_pos : MapPos) :
    List VertexCoord × List Color3 :=
  let pos3d := geom.map_pos_to_world_pos tile_pos
  ((List.range 6).flatMap (fun num =>
      let vertex := geom.index_to_hex_vertex (num : Int)
      let next_vertex := geom.index_to_hex_vertex ((num : Int) + 1)
      [pos3d + vertex, pos3d + next_vertex, pos3d + Vector3.zero]),
   (List.range 6).flatMap (fun _ =>
      let color := hex_tile_color tile_pos
      [color, color, color]))

/-- `build_hex_map_mesh` (tile_picker.rs lines 27-50): the vertex and color
arrays over every tile of the map. -/
def build_hex_map_mesh (geom : Geom) (map_size : Size2) :
    List VertexCoord × List Color3 :=
  ((MapPosIter.new map_size).flatMap (fun p => (hex_tile_data geom p).1),
   (MapPosIter.new map_size).flatMap (fun p => (hex_tile_data geom p).2))

/-! ## OBJ model ingestion (src/visualizer/obj.rs) -/

/-- `Face` (obj.rs lines 11-15): three 1-based indices each into the
coordinate, texture-coordinate and normal arrays. -/
structure Face where
  vertex : Fin 3 → Int
  texture : Fin 3 → Int
  normal : Fin 3 → Int

/-- `Model` (obj.rs lines 17-22). -/
structure Model where
  coords : List VertexCoord
  normals : List Normal
  texture_coords : List TextureCoord
  faces : List Face

/-- `Vec::get` with the Rust `as uint` index cast of the loader: on a 64-bit
target a negative `Int` casts to at least `2^64 - 2^31`, and in
`build_tex_coord` the cast-then-subtract wraps index 0 around to `2^64 - 1`;
every such index exceeds any possible `Vec` length, so in both loaders the
lookup aborts (modelled as `none`) exactly when the 0-based index is outside
`[0, len)`. -/
def vecGet {α : Type} (l : List α) (i : Int) : Option α :=
  if h : 0 ≤ i ∧ i.toNat < l.length then some (l.get ⟨i.toNat, h.2⟩) else none

/-- The push-inside-`for` pattern of `build`/`build_tex_coord`, with the panic
of an out-of-range lookup aborting the whole traversal. -/
def mapOption {α β : Type} (f : α → Option β) : List α → Option (List β)
  | [] => some []
  | a :: l =>
    match f a, mapOption f l with
    | some b, some bs => some (b :: bs)
    | _, _ => none

/-- The loop bound `range(0, 3)` over a face's three index slots. -/
def finRange3 : List (Fin 3) := [0, 1, 2]

/-- `Model::build` (obj.rs lines 108-117): for each face, for `i` in `0..3`,
push `coords[face.vertex[i] - 1]`. -/
def Model.build (m : Model) : Option (List VertexCoord) :=
  (mapOption (fun face =>
      mapOption (fun i => vecGet m.coords (face.vertex i - 1)) finRange3)
    m.faces).map List.flatten

/-- `Model::build_tex_coord` (obj.rs lines 119-128): for each face, for `i`
in `0..3`, push `texture_coords[(face.texture[i] as uint) - 1]`. -/
def Model.build_tex_coord (m : Model) : Option (List TextureCoord) :=
  (mapOption (fun face =>
      mapOption (fun i => vecGet m.texture_coords (face.texture i - 1))
        finRange3)
    m.faces).map List.flatten

/-- Modelled from the spec: Rust std's `from_str::<f32>` restricted to the
plain decimal literals an OBJ file holds (optional minus sign, digits, an
optional fractional part), with the parsed `f32` modelled as an exact `ℚ`. -/
def parseDigits (cs : List Char) : Option Nat :=
  if cs ≠ [] ∧ cs.all (fun c => decide ('0' ≤ c) && decide (c ≤ '9'))
  then some (cs.foldl (fun n c => n * 10 + (c.toNat - 48)) 0)
  else none

/-- Modelled from the spec: the numeric conversion used by `parse_word` /
`parse_charsplit`; a token that is not a number is a fatal parse error
(`none`). -/
def from_str (s : String) : Option MFloat :=
  let signAndBody : MFloat × List Char :=
    match s.data with
    | '-' :: cs => (-1, cs)
    | cs => (1, cs)
  match signAndBody.2.splitOn '.' with
  | [ip] => (parseDigits ip).map (fun n => signAndBody.1 * (n : MFloat))
  | [ip, fp] =>
    match parseDigits ip, parseDigits fp with
    | some n, some f =>
      some (signAndBody.1 *
        ((n : MFloat) + (f : MFloat) / (10 : MFloat) ^ fp.length))
    | _, _ => none
  | _ => none

/-- `parse_word` (obj.rs lines 25-28): take the next word of the line and
convert it; a missing word or a non-numeric token is fatal (`none`). -/
def parse_word (words : List String) : Option (MFloat × List String) :=
  match words with
  | [] => none
  | w :: rest => (from_str w).map (fun v => (v, rest))

/-- `Model::read_vt` (obj.rs lines 54-59):
`Vector2 { x: parse_word(words), y: 1.0 - parse_word(words) }` — the second
component is stored flipped. -/
def read_vt (words : List String) : Option TextureCoord :=
  match parse_word words with
  | none => none
  | some (x, words) =>
    match parse_word words with
    | none => none
    | some (y, _) => some { x := x, y := 1 - y }

/-! ## Concrete instances used by the witnesses -/

/-- A trivial geometry collaborator for concrete evaluations: every position
and corner offset is the origin (the claims verified here do not depend on
the world positions). -/
def trivGeom : Geom :=
  { map_pos_to_world_pos := fun _ => Vector3.zero,
    index_to_hex_vertex := fun _ => Vector3.zero }

/-- The spec's OBJ round-trip example: `v 0 0 0`, `v 1 0 0`, `v 0 1 0`,
`f 1/1/1 2/1/1 3/1/1`. -/
def objExampleModel : Model :=
  { coords := [{ x := 0, y := 0, z := 0 }, { x := 1, y := 0, z := 0 },
               { x := 0, y := 1, z := 0 }],
    normals := [],
    texture_coords := [],
    faces := [{ vertex := ![1, 2, 3], texture := ![1, 1, 1],
                normal := ![1, 1, 1] }] }

/-! ## Theorems -/

/-- C3: `pick_tile` reads back exactly one RGBA pixel (4 unsigned bytes) at
framebuffer position `(mouse_position.x, window_height − mouse_position.y)` —
the result depends only on the framebuffer's value there — and it returns
`Some((byte[0], byte[1]))` if and only if the read-back blue byte is nonzero,
returning `None` ("no tile") otherwise. -/
theorem c3_read_one_pixel_decode (win_size : Size2) (fb : FrameBuffer)
    (mouse_pos : MapPos) :
    (∀ fb2 : FrameBuffer,
      fb2 (mouse_pos.x, win_size.h - mouse_pos.y)
          = fb (mouse_pos.x, win_size.h - mouse_pos.y) →
      read_coords_from_image_buffer win_size fb2 mouse_pos
        = read_coords_from_image_buffer win_size fb mouse_pos) ∧
    (read_coords_from_image_buffer win_size fb mouse_pos
        = some { x := ((fb (mouse_pos.x, win_size.h - mouse_pos.y)).r : Int),
                 y := ((fb (mouse_pos.x, win_size.h - mouse_pos.y)).g : Int) }
      ↔ (fb (mouse_pos.x, win_size.h - mouse_pos.y)).b ≠ 0) ∧
    (read_coords_from_image_buffer win_size fb mouse_pos = none
      ↔ (fb (mouse_pos.x, win_size.h - mouse_pos.y)).b = 0) ∧
    (∀ rasterize : FrameBuffer → FrameBuffer,
      pick_tile win_size rasterize mouse_pos
        = read_coords_from_image_buffer win_size (rasterize cleared_frame)
            mouse_pos) := by
  refine ⟨fun fb2 heq => ?_, ?_, ?_, fun rasterize => rfl⟩
  · simp only [read_coords_from_image_buffer]
    rw [heq]
  · unfold read_coords_from_image_buffer
    by_cases h : (fb (mouse_pos.x, win_size.h - mouse_pos.y)).b = 0 <;>
      simp [h]
  · unfold read_coords_from_image_buffer
    by_cases h : (fb (mouse_pos.x, win_size.h - mouse_pos.y)).b = 0 <;>
      simp [h]

/-- C5 (code bug): `Mesh::draw` passes the recorded vertex count `len`
straight to `draw_mesh`, whose parameter is a *faces* count, so the issued
draw covers `3·len` vertices instead of the `len` vertices (`len/3`
triangles) the claim states. At the failing input `len = 18` (one hex tile):
`draw_mesh` itself behaves as claimed (`draw_mesh 1` covers 3 vertices from
index 0), the mesh's draw is `draw_mesh 18`, and the issued call covers 54
vertices, not 18. -/
theorem c5_mesh_draw_overdraws :
    draw_mesh 1 = { first := 0, count := 3 } ∧
    Mesh.draw { vbo := 1, color_vbo := some 2, len := 18 } = draw_mesh 18 ∧
    (Mesh.draw { vbo := 1, color_vbo := some 2, len := 18 }).count = 54 ∧
    (Mesh.draw { vbo := 1, color_vbo := some 2, len := 18 }).count ≠ 18 := by
  decide

/-- C6 (code bug): a `Mesh` built by `init` then `set_color` owns two buffers
(position buffer 1 and color buffer 2), but its `Drop` impl releases only the
position buffer — the color buffer is never released. -/
theorem c6_drop_leaks_color_buffer :
    ((Mesh.new.init [Vector3.zero] 1).set_color
        [{ r := 0, g := 0, b := 0 }] 2).color_vbo = some 2 ∧
    Mesh.drop ((Mesh.new.init [Vector3.zero] 1).set_color
        [{ r := 0, g := 0, b := 0 }] 2) = [1] ∧
    2 ∉ Mesh.drop ((Mesh.new.init [Vector3.zero] 1).set_color
        [{ r := 0, g := 0, b := 0 }] 2) := by
  decide

/-- C9: `Mesh::set_color(colors)` overwrites the recorded count with
`colors.len()`: after `init(positions)` followed by `set_color(colors)` with
arrays of different lengths, the recorded length is `colors.len()`, not
`positions.len()`, and `draw` issues its draw from that length. -/
theorem c9_set_color_overwrites_len (positions : List VertexCoord)
    (colors : List Color3) (b1 b2 : Nat)
    (h : positions.length ≠ colors.length) :
    ((Mesh.new.init positions b1).set_color colors b2).len
        = (colors.length : Int) ∧
    ((Mesh.new.init positions b1).set_color colors b2).len
        ≠ (positions.length : Int) ∧
    Mesh.draw ((Mesh.new.init positions b1).set_color colors b2)
        = draw_mesh (colors.length : Int) := by
  refine ⟨rfl, ?_, rfl⟩
  show ((colors.length : Int)) ≠ (positions.length : Int)
  exact_mod_cast Ne.symm h

/-- Witness for C9 at a concrete input: one position, two colors. -/
theorem c9_witness :
    ((Mesh.new.init [Vector3.zero] 1).set_color
        [{ r := 0, g := 0, b := 0 }, { r := 0, g := 0, b := 0 }] 2).len
        = ((2 : Nat) : Int) ∧
    ((Mesh.new.init [Vector3.zero] 1).set_color
        [{ r := 0, g := 0, b := 0 }, { r := 0, g := 0, b := 0 }] 2).len
        ≠ ((1 : Nat) : Int) ∧
    Mesh.draw ((Mesh.new.init [Vector3.zero] 1).set_color
        [{ r := 0, g := 0, b := 0 }, { r := 0, g := 0, b := 0 }] 2)
        = draw_mesh ((2 : Nat) : Int) := by
  exact c9_set_color_overwrites_len [Vector3.zero]
    [{ r := 0, g := 0, b := 0 }, { r := 0, g := 0, b := 0 }] 1 2 (by decide)

/-- Every color `build_hex_map_mesh` emits is a tile's `hex_tile_color`. -/
theorem build_colors_eq_tile_color (geom : Geom) (map_size : Size2) :
    ∀ col ∈ (build_hex_map_mesh geom map_size).2,
      ∃ p ∈ MapPosIter.new map_size, col = hex_tile_color p := by
  intro col hcol
  simp only [build_hex_map_mesh, hex_tile_data, List.mem_flatMap] at hcol
  obtain ⟨p, hp, hmem⟩ := hcol
  refine ⟨p, hp, ?_⟩
  obtain ⟨n, _, hmem⟩ := hmem
  simp only [List.mem_cons, List.not_mem_nil, or_false] at hmem
  rcases hmem with rfl | rfl | rfl <;> rfl

/-- A channel value of exactly 1 quantizes to the byte 255. -/
theorem quantize_channel_one : quantize_channel 1 = 255 := by
  unfold quantize_channel
  norm_num
  rfl

/-- A channel value of exactly 0 quantizes to the byte 0. -/
theorem quantize_channel_zero : quantize_channel 0 = 0 := by
  unfold quantize_channel
  norm_num

/-- C1: every vertex color of `build_hex_map_mesh` has blue channel exactly
1.0 while `pick_tile` clears the framebuffer to black (blue byte 0); under
the spec's rendering assumption — each framebuffer pixel after the draw is
either the cleared pixel or the quantized color of some drawn vertex — the
pixel `pick_tile` probes decodes to "no tile" (`none`) exactly when it is a
cleared background pixel, never when a tile was rendered there. -/
theorem c1_blue_sentinel (geom : Geom) (map_size : Size2) (win_size : Size2)
    (mouse_pos : MapPos) (rasterize : FrameBuffer → FrameBuffer)
    (hras : ∀ p : Int × Int,
      rasterize cleared_frame p = cleared_frame p ∨
      ∃ col ∈ (build_hex_map_mesh geom map_size).2, ∃ a : MFloat,
        rasterize cleared_frame p = quantize_color col a) :
    (∀ col ∈ (build_hex_map_mesh geom map_size).2, col.b = 1) ∧
    (∀ p : Int × Int, (cleared_frame p).b = 0) ∧
    (pick_tile win_size rasterize mouse_pos = none ↔
      rasterize cleared_frame (mouse_pos.x, win_size.h - mouse_pos.y)
        = cleared_frame (mouse_pos.x, win_size.h - mouse_pos.y)) := by
  have hblue : ∀ col ∈ (build_hex_map_mesh geom map_size).2, col.b = 1 := by
    intro col hcol
    obtain ⟨p, _, rfl⟩ := build_colors_eq_tile_color geom map_size col hcol
    rfl
  refine ⟨hblue, fun p => quantize_channel_zero, ?_⟩
  rcases hras (mouse_pos.x, win_size.h - mouse_pos.y) with hp | ⟨col, hcol, a, hp⟩
  · simp only [pick_tile, read_coords_from_image_buffer, hp]
    have hb : (cleared_frame
        (mouse_pos.x, win_size.h - mouse_pos.y)).b = 0 := quantize_channel_zero
    simp [hb]
  · have hb : (rasterize cleared_frame
        (mouse_pos.x, win_size.h - mouse_pos.y)).b = 255 := by
      rw [hp]
      show quantize_channel col.b = 255
      rw [hblue col hcol]
      exact quantize_channel_one
    constructor
    · intro hnone
      exfalso
      simp only [pick_tile, read_coords_from_image_buffer, hb] at hnone
      simp at hnone
    · intro hcl
      exfalso
      have h0 : (cleared_frame
          (mouse_pos.x, win_size.h - mouse_pos.y)).b = 0 := quantize_channel_zero
      rw [← hcl, hb] at h0
      exact absurd h0 (by decide)

/-- Witness for C1: the identity rasterizer (nothing drawn over the cleared
frame) on a 1×1 map — the probed background pixel decodes to `none`. -/
theorem c1_witness :
    (∀ col ∈ (build_hex_map_mesh trivGeom { w := 1, h := 1 }).2, col.b = 1) ∧
    (∀ p : Int × Int, (cleared_frame p).b = 0) ∧
    (pick_tile { w := 1, h := 1 } (fun fb => fb) { x := 0, y := 0 } = none ↔
      (fun fb => fb) cleared_frame
          (({ x := 0, y := 0 } : MapPos).x,
           ({ w := 1, h := 1 } : Size2).h - ({ x := 0, y := 0 } : MapPos).y)
        = cleared_frame
          (({ x := 0, y := 0 } : MapPos).x,
           ({ w := 1, h := 1 } : Size2).h - ({ x := 0, y := 0 } : MapPos).y)) := by
  exact c1_blue_sentinel trivGeom { w := 1, h := 1 } { w := 1, h := 1 }
    { x := 0, y := 0 } (fun fb => fb) (fun p => Or.inl rfl)

/-- Encoding a coordinate in `[0, 255]` as `x/255` and quantizing recovers
the byte `x`. -/
theorem quantize_channel_encode {x : Int} (h0 : 0 ≤ x) (h1 : x ≤ 255) :
    quantize_channel ((x : MFloat) / 255) = x.toNat := by
  unfold quantize_channel
  have hle : (x : ℚ) / 255 ≤ 1 := by
    rw [div_le_one (by norm_num)]
    exact_mod_cast h1
  have hge : (0 : ℚ) ≤ (x : ℚ) / 255 := by positivity
  rw [min_eq_right hle, max_eq_right hge,
    mul_div_cancel₀ _ (by norm_num : (255 : ℚ) ≠ 0), round_intCast]

/-- C2: for every tile coordinate `(x, y)` with both components in
`[0, 254]`, encoding it as the color `(x/255, y/255, 1.0)` exactly as
`build_hex_map_mesh` does, quantizing each channel to an unsigned byte, and
applying the picker's decode rule yields exactly `(x, y)`. -/
theorem c2_encode_roundtrip (x y : Int) (hx0 : 0 ≤ x) (hx1 : x ≤ 254)
    (hy0 : 0 ≤ y) (hy1 : y ≤ 254) (win_size : Size2) (mouse_pos : MapPos)
    (alpha : MFloat) :
    read_coords_from_image_buffer win_size
      (fun _ => quantize_color (hex_tile_color { x := x, y := y }) alpha)
      mouse_pos = some { x := x, y := y } := by
  have hx255 : x ≤ 255 := by omega
  have hy255 : y ≤ 255 := by omega
  simp only [read_coords_from_image_buffer, quantize_color, hex_tile_color]
  rw [quantize_channel_encode hx0 hx255,
    quantize_channel_encode hy0 hy255, quantize_channel_one]
  simp [Int.toNat_of_nonneg, hx0, hy0]

/-- Witness for C2 at the concrete tile `(2, 1)`. -/
theorem c2_witness :
    read_coords_from_image_buffer { w := 4, h := 4 }
      (fun _ => quantize_color (hex_tile_color { x := 2, y := 1 }) 1)
      { x := 0, y := 0 } = some { x := 2, y := 1 } := by
  exact c2_encode_roundtrip 2 1 (by decide) (by decide) (by decide) (by decide)
    { w := 4, h := 4 } { x := 0, y := 0 } 1

/-- The length of a `flatMap` all of whose pieces have length `n`. -/
theorem length_flatMap_const {α β : Type} (l : List α) (f : α → List β)
    (n : ℕ) (h : ∀ a, (f a).length = n) :
    (l.flatMap f).length = n * l.length := by
  induction l with
  | nil => simp
  | cons a t ih =>
    rw [List.flatMap_cons, List.length_append, h, ih, List.length_cons]
    ring

/-- Indexing into a `flatMap` of 18-element constant blocks: entry `j` comes
from block `j / 18`. -/
theorem getElem?_flatMap_replicate {α β : Type} (f : α → β) (l : List α)
    (j : ℕ) :
    (l.flatMap (fun a => List.replicate 18 (f a)))[j]? = (l[j / 18]?).map f := by
  induction l generalizing j with
  | nil => simp
  | cons a t ih =>
    rw [List.flatMap_cons]
    by_cases hj : j < 18
    · rw [List.getElem?_append_left (by simpa using hj),
        List.getElem?_replicate, Nat.div_eq_of_lt hj]
      simp [hj]
    · rw [List.getElem?_append_right (by simpa using Nat.le_of_not_lt hj)]
      simp only [List.length_replicate]
      rw [ih]
      have hd : j / 18 = (j - 18) / 18 + 1 := by omega
      rw [hd, List.getElem?_cons_succ]

/-- C4: for a map with `T` tiles, `build_hex_map_mesh` returns a vertex array
and a color array of exactly `18·T` elements each (6 fan triangles of 3
vertices per tile, as `hex_tile_data` lays them out), the color array is tile
by tile 18 copies of that tile's single encoded color, and in particular
every 3 consecutive colors are identical. -/
theorem c4_mesh_sizes_and_colors (geom : Geom) (map_size : Size2) :
    (build_hex_map_mesh geom map_size).1.length
        = 18 * (MapPosIter.new map_size).length ∧
    (build_hex_map_mesh geom map_size).2.length
        = 18 * (MapPosIter.new map_size).length ∧
    (build_hex_map_mesh geom map_size).2
        = (MapPosIter.new map_size).flatMap
            (fun p => List.replicate 18 (hex_tile_color p)) ∧
    (∀ i : ℕ,
      (build_hex_map_mesh geom map_size).2[3 * i]?
          = (build_hex_map_mesh geom map_size).2[3 * i + 1]? ∧
      (build_hex_map_mesh geom map_size).2[3 * i + 1]?
          = (build_hex_map_mesh geom map_size).2[3 * i + 2]?) := by
  have hcols : (build_hex_map_mesh geom map_size).2
      = (MapPosIter.new map_size).flatMap
          (fun p => List.replicate 18 (hex_tile_color p)) := rfl
  refine ⟨?_, ?_, hcols, ?_⟩
  · exact length_flatMap_const _ _ 18 (fun p => rfl)
  · rw [hcols]
    exact length_flatMap_const _ _ 18 (fun p => by simp)
  · intro i
    rw [hcols, getElem?_flatMap_replicate, getElem?_flatMap_replicate,
      getElem?_flatMap_replicate]
    have h1 : 3 * i / 18 = (3 * i + 1) / 18 := by omega
    have h2 : (3 * i + 1) / 18 = (3 * i + 2) / 18 := by omega
    rw [h1, h2]
    exact ⟨rfl, rfl⟩

/-- C7: for every OBJ line `vt u v` whose two tokens parse as the numbers `u`
and `v`, the parser stores the texture coordinate `(u, 1 − v)`. -/
theorem c7_read_vt_flips (su sv : String) (rest : List String) (u v : MFloat)
    (hu : from_str su = some u) (hv : from_str sv = some v) :
    read_vt (su :: sv :: rest) = some { x := u, y := 1 - v } := by
  simp [read_vt, parse_word, hu, hv]

/-- Witness for C7: the spec's concrete instance — `vt 0.2 0.3` is stored as
`(0.2, 0.7) = (1/5, 7/10)`. -/
theorem c7_witness :
    read_vt ["0.2", "0.3"] = some { x := 1 / 5, y := 7 / 10 } := by
  have hu : from_str "0.2"
      = some ((1 : MFloat) * (((0 : ℕ) : MFloat)
          + ((2 : ℕ) : MFloat) / (10 : MFloat) ^ (1 : ℕ))) := rfl
  have hv : from_str "0.3"
      = some ((1 : MFloat) * (((0 : ℕ) : MFloat)
          + ((3 : ℕ) : MFloat) / (10 : MFloat) ^ (1 : ℕ))) := rfl
  have h := c7_read_vt_flips "0.2" "0.3" [] _ _ hu hv
  rw [h]
  simp only [Option.some.injEq, Vector2.mk.injEq]
  constructor <;> norm_num

/-- `mapOption` returns the mapped list when `f` succeeds on every element. -/
theorem mapOption_congr_some {α β : Type} (f : α → Option β) (g : α → β)
    (l : List α) (h : ∀ a ∈ l, f a = some (g a)) :
    mapOption f l = some (l.map g) := by
  induction l with
  | nil => rfl
  | cons a t ih =>
    rw [List.map_cons]
    simp only [mapOption]
    rw [h a (List.mem_cons_self a t),
      ih (fun x hx => h x (List.mem_cons_of_mem a hx))]

/-- `mapOption` succeeds exactly when `f` succeeds on every element. -/
theorem mapOption_isSome_iff {α β : Type} (f : α → Option β) (l : List α) :
    (mapOption f l).isSome ↔ ∀ a ∈ l, (f a).isSome := by
  induction l with
  | nil => simp [mapOption]
  | cons a t ih =>
    simp only [mapOption, List.forall_mem_cons]
    cases hfa : f a <;> cases hmt : mapOption f t <;>
      simp_all

/-- `vecGet` succeeds exactly on an in-bounds index. -/
theorem vecGet_isSome {α : Type} (l : List α) (i : Int) :
    (vecGet l i).isSome ↔ 0 ≤ i ∧ i.toNat < l.length := by
  unfold vecGet
  split <;> simp_all

/-- `Option.map` preserves success. -/
theorem isSome_option_map {α β : Type} (f : α → β) (o : Option α) :
    (o.map f).isSome = o.isSome := by
  cases o <;> rfl

/-- The loop bound list holds every `Fin 3`. -/
theorem finRange3_complete : ∀ i : Fin 3, i ∈ finRange3 := by decide

/-- C8: whenever every face's 1-based vertex indices are in range,
`Model::build` returns one triple of vertex coordinates per face, in face
order, each obtained by converting the 1-based index to 0-based and looking
it up in the coordinate array. -/
theorem c8_build_resolves_faces (m : Model)
    (hm : ∀ face ∈ m.faces, ∀ i : Fin 3,
      1 ≤ face.vertex i ∧ face.vertex i ≤ (m.coords.length : Int)) :
    m.build = some (m.faces.flatMap (fun face =>
      finRange3.map (fun i =>
        m.coords.getD ((face.vertex i - 1).toNat) Vector3.zero))) := by
  have hinner : ∀ face ∈ m.faces,
      mapOption (fun i => vecGet m.coords (face.vertex i - 1)) finRange3
        = some (finRange3.map (fun i =>
            m.coords.getD ((face.vertex i - 1).toNat) Vector3.zero)) := by
    intro face hface
    apply mapOption_congr_some
    intro i _
    have h := hm face hface i
    have h0 : 0 ≤ face.vertex i - 1 ∧
        (face.vertex i - 1).toNat < m.coords.length := by omega
    unfold vecGet
    rw [dif_pos h0]
    congr 1
    rw [List.getD_eq_getElem?_getD, List.getElem?_eq_getElem h0.2]
    rfl
  unfold Model.build
  rw [mapOption_congr_some _ _ _ hinner, Option.map_some', ← List.flatMap_def]

/-- Witness for C8: the spec's OBJ round-trip example resolves to the three
vertices in declared order. -/
theorem c8_witness :
    objExampleModel.build = some
      [{ x := 0, y := 0, z := 0 }, { x := 1, y := 0, z := 0 },
       { x := 0, y := 1, z := 0 }] := by
  rw [c8_build_resolves_faces objExampleModel (by decide)]
  decide

/-- C10: `Model::build` and `build_tex_coord` perform no index validation —
each returns a result exactly when every face's 1-based vertex
(resp. texture-coordinate) index lies in `[1, length of the corresponding
array]`; any index outside this range makes the lookup fail irrecoverably
(the panic is modelled as `none`). -/
theorem c10_build_total_iff_in_range (m : Model) :
    (m.build.isSome ↔ ∀ face ∈ m.faces, ∀ i : Fin 3,
      1 ≤ face.vertex i ∧ face.vertex i ≤ (m.coords.length : Int)) ∧
    (m.build_tex_coord.isSome ↔ ∀ face ∈ m.faces, ∀ i : Fin 3,
      1 ≤ face.texture i ∧ face.texture i ≤ (m.texture_coords.length : Int)) := by
  constructor
  · unfold Model.build
    rw [isSome_option_map, mapOption_isSome_iff]
    constructor
    · intro hs face hface i
      have h2 := (mapOption_isSome_iff _ _).mp (hs face hface) i
        (finRange3_complete i)
      rw [vecGet_isSome] at h2
      omega
    · intro h face hface
      rw [mapOption_isSome_iff]
      intro i _
      rw [vecGet_isSome]
      have := h face hface i
      omega
  · unfold Model.build_tex_coord
    rw [isSome_option_map, mapOption_isSome_iff]
    constructor
    · intro hs face hface i
      have h2 := (mapOption_isSome_iff _ _).mp (hs face hface) i
        (finRange3_complete i)
      rw [vecGet_isSome] at h2
      omega
    · intro h face hface
      rw [mapOption_isSome_iff]
      intro i _
      rw [vecGet_isSome]
      have := h face hface i
      omega

end Marauder
